import Mathlib

/-!
Verification of the loggo logging library (asynchronous evolution: the
`Logger`/`Level` definitions together with the event pipeline in
`event.msgf`, `Logger.executeHooks` and the buffer-pool code).

The shallow embedding below translates the Go source into Lean:
pure functions become Lean functions, the per-emission side effects
(output write, hook-job submission, worker-pool drain/stop, exit/panic,
buffer borrow/release) become an explicit trace of `Act`s, and the
mutable `Logger` state (its buffer pool) is passed explicitly.
`time.Now()`-derived data (the formatted timestamp) is a parameter.
Go byte slices become `GoBuf` (contents plus tracked capacity); all
strings involved are ASCII, so Go's byte length coincides with
`String.length`.
-/

/-! ## Levels and static lookup tables

Go: `type Level int`.  Levels are integer backed and modelled directly
as `Int`; DEBUG = 0 .. PANIC = 6. -/

def DEBUG : Int := 0
def INFO : Int := 1
def WARN : Int := 2
def ERROR : Int := 3
def CRITICAL : Int := 4
def FATAL : Int := 5
def PANIC : Int := 6

/-- ANSI reset sequence `"\033[0m"`. -/
def colorReset : String := "\x1b[0m"

def colorRed : String := "\x1b[31m"

def colorGreen : String := "\x1b[32m"

def colorYellow : String := "\x1b[33m"

def colorCyan : String := "\x1b[36m"

/-- Go map `levelColors`.  Indexing a Go map with a missing key yields the
zero value `""`, so the function is total with default `""`. -/
def levelColors (l : Int) : String :=
  if l = DEBUG then colorCyan
  else if l = INFO then colorGreen
  else if l = WARN then colorYellow
  else if l = ERROR then colorRed
  else if l = CRITICAL then colorRed
  else if l = FATAL then colorRed
  else if l = PANIC then colorRed
  else ""

/-- Go map `paddedLevelStrings` (comma-ok lookup used by `PaddedString`). -/
def paddedLevelStrings (l : Int) : Option String :=
  if l = DEBUG then some "[DEBUG]"
  else if l = INFO then some "[INFO] "
  else if l = WARN then some "[WARN] "
  else if l = ERROR then some "[ERROR]"
  else if l = CRITICAL then some "[CRIT] "
  else if l = FATAL then some "[FATAL]"
  else if l = PANIC then some "[PANIC]"
  else none

/-- Go: `func (l Level) String() string` (switch with `default: "UNKNOWN"`). -/
def levelString (l : Int) : String :=
  if l = DEBUG then "DEBUG"
  else if l = INFO then "INFO"
  else if l = WARN then "WARN"
  else if l = ERROR then "ERROR"
  else if l = CRITICAL then "CRIT"
  else if l = FATAL then "FATAL"
  else if l = PANIC then "PANIC"
  else "UNKNOWN"

/-- Go: `func (l Level) PaddedString() string`: map lookup with the
missing-key guard returning `"[UNKNOWN]"`. -/
def levelPaddedString (l : Int) : String :=
  match paddedLevelStrings l with
  | some padded => padded
  | none => "[UNKNOWN]"

/-! ## Hooks, buffers, logger state -/

/-- Go `Hook` record: callback, priority, identity string
(`id` is generated from the function pointer on `AddHook`).
The callback returns `none` for a nil error and `some e` for an error
whose `Error()` text is `e`. -/
structure Hook where
  fn : Int → String → Option String
  priority : Int
  id : String

/-- A Go byte slice as used for the message buffer: its contents and its
tracked capacity (`cap`). -/
structure GoBuf where
  data : String
  cap : Nat
deriving DecidableEq

/-- The `Logger` fields the emission pipeline reads or writes.  `writers`
is the registered destination list of the `multiWriter` (destinations are
identified by index in registration order); `pool` models the
`sync.Pool` deterministically as a LIFO stack whose `Get` falls back to
the pool's `New` (a fresh buffer of capacity `bufSize`) when empty. -/
structure Logger where
  level : Int
  writers : List Nat
  timeFormat : String
  hooks : List Hook
  maxHooks : Int
  bufSize : Nat
  pool : List GoBuf

/-- Go `New()`: INFO level, a single destination (stdout, id 0),
default time format, hook capacity 100, buffer size 1024. -/
def newLogger : Logger :=
  { level := INFO
    writers := [0]
    timeFormat := "2006-01-02 15:04:05.000 MST"
    hooks := []
    maxHooks := 100
    bufSize := 1024
    pool := [] }

/-- Go `Logger.getBuffer(size)`: oversized requests get a fresh buffer of
exactly the requested capacity; otherwise `pool.Get()` pops a pooled
buffer (truncated to length 0, capacity kept) or allocates a fresh
buffer of capacity `bufSize` via the pool's `New` — the requested `size`
is not consulted on this path. -/
def getBuffer (l : Logger) (size : Nat) : GoBuf × Logger :=
  if size > l.bufSize * 4 then (⟨"", size⟩, l)
  else
    match l.pool with
    | [] => (⟨"", l.bufSize⟩, l)
    | b :: rest => (⟨"", b.cap⟩, { l with pool := rest })

/-- Go `Logger.putBuffer(buf)`: buffers whose capacity exceeds
`bufSize*4` are dropped instead of pooled. -/
def putBuffer (l : Logger) (b : GoBuf) : Logger :=
  if b.cap > l.bufSize * 4 then l else { l with pool := b :: l.pool }

/-- Go `Logger.AddHook(hook, priority)`: fails with an error when the
registry is full, otherwise appends a record whose id (`"%p"` of the
callback in Go) is passed in as `newId`. -/
def AddHook (l : Logger) (fn : Int → String → Option String) (priority : Int)
    (newId : String) : Logger × Option String :=
  if l.maxHooks ≤ (l.hooks.length : Int) then
    (l, some ("maximum number of hooks (" ++ toString l.maxHooks ++ ") reached"))
  else
    ({ l with hooks := l.hooks ++ [⟨fn, priority, newId⟩] }, none)

/-! ## Format arguments and the general formatter -/

/-- A Go `any` argument as passed to the emission methods.  The
recognised primitive kinds of the `msgf` switch are `string`, `int`,
`int64` and `error`; `other` stands for any value outside the switch
(carrying its `%v` rendering).  The `float64` case of the Go switch is
not modelled: floating point is outside the embedding and outside every
claim. -/
inductive GoArg where
  | str (s : String)
  | int (n : Int)
  | int64 (n : Int)
  | errv (msg : String)
  | other (rendered : String)
deriving DecidableEq

/-- Rendering of one argument when the general formatter substitutes it
for a verb: decimal form for the integer kinds, the string itself for
`string`, the `Error()` text for an error value, the carried rendering
otherwise. -/
def argRender : GoArg → String
  | .str s => s
  | .int n => toString n
  | .int64 n => toString n
  | .errv m => m
  | .other r => r

/-- Modelled from the Go standard library: `fmt.Sprintf` restricted to
the format strings the claims exercise (verbs `%d`, `%s`, `%v` and the
escape `%%`; a verb with no argument left renders Go's `%!x(MISSING)`
diagnostic; other verbs are outside the model).  The source delegates
general formatting to `fmt`. -/
def sprintfAux : List Char → List GoArg → List Char
  | [], _ => []
  | '%' :: '%' :: rest, args => '%' :: sprintfAux rest args
  | '%' :: 'd' :: rest, a :: args => (argRender a).data ++ sprintfAux rest args
  | '%' :: 's' :: rest, a :: args => (argRender a).data ++ sprintfAux rest args
  | '%' :: 'v' :: rest, a :: args => (argRender a).data ++ sprintfAux rest args
  | '%' :: c :: rest, [] => '%' :: '!' :: c :: ("(MISSING)".data ++ sprintfAux rest [])
  | c :: rest, args => c :: sprintfAux rest args

/-- `fmt.Sprintf format args...` (see `sprintfAux`).  This is the
general format-and-substitute routine of the spec. -/
def sprintfModel (format : String) (args : List GoArg) : String :=
  ⟨sprintfAux format.data args⟩

/-- The message-body paths of `event.msgf`: zero arguments append the
format string verbatim; exactly one argument of a recognised primitive
kind appends a direct textual conversion of the argument (the format
string is not consulted on this path); anything else goes through the
general formatter. -/
def msgBody (format : String) (args : List GoArg) : String :=
  match args with
  | [] => format
  | [a] =>
    match a with
    | .str s => s
    | .int n => toString n
    | .int64 n => toString n
    | .errv m => m
    | .other _ => sprintfModel format [a]
  | _ => sprintfModel format args

/-! ## Byte-slice append and the emission pipeline -/

/-- The 1.25x growth loop of the Go runtime for slices with old capacity
at least 256 (fuel-indexed; the fuel passed in always suffices). -/
def goGrowLoop : Nat → Nat → Nat → Nat
  | 0, newcap, _ => newcap
  | fuel + 1, newcap, newLen =>
    if newLen ≤ newcap then newcap
    else goGrowLoop fuel (newcap + (newcap + 3 * 256) / 4) newLen

/-- Go runtime `growslice` capacity rule for byte slices: a needed length
above twice the old capacity is taken directly; below 256 the capacity
doubles; otherwise it grows by 1.25x steps.  Go additionally rounds the
result up to a malloc size class; no theorem below depends on a grown
capacity, so that rounding is omitted. -/
def goGrow (oldCap newLen : Nat) : Nat :=
  if newLen > 2 * oldCap then newLen
  else if oldCap < 256 then 2 * oldCap
  else goGrowLoop newLen oldCap newLen

/-- Go `append` on a byte slice: within capacity the contents extend in
place; beyond capacity the runtime reallocates with `goGrow`. -/
def goAppend (b : GoBuf) (s : String) : GoBuf :=
  if b.data.length + s.length ≤ b.cap then ⟨b.data ++ s, b.cap⟩
  else ⟨b.data ++ s, goGrow b.cap (b.data.length + s.length)⟩

/-- The append sequence of `event.msgf` building the output line into the
event buffer: the header fragments written by
`fmt.Appendf(buf, "%s%s%s %s: ", ...)`, then the message body, then the
trailing newline. -/
def buildLine (b0 : GoBuf) (level : Int) (ts format : String)
    (args : List GoArg) : GoBuf :=
  let b1 := goAppend b0 (levelColors level)
  let b2 := goAppend b1 (levelPaddedString level)
  let b3 := goAppend b2 colorReset
  let b4 := goAppend b3 " "
  let b5 := goAppend b4 ts
  let b6 := goAppend b5 ": "
  let b7 := goAppend b6 (msgBody format args)
  goAppend b7 "\n"

/-- The buffer-size estimate of `event.msgf`:
`len(color) + len(padded) + len(reset) + len(timestamp) + 2 + len(format) + 1`. -/
def estimatedSize (level : Int) (ts format : String) : Nat :=
  (levelColors level).length + (levelPaddedString level).length +
    colorReset.length + ts.length + 2 + format.length + 1

/-- Go `multiWriter.write`: under one critical section the same payload
is handed to every registered destination, in registration order. -/
def mwWrite (writers : List Nat) (data : String) : List (Nat × String) :=
  writers.map fun w => (w, data)

/-- One observable side effect of an emission, in program order. -/
inductive Act where
  | borrowBuf (cap : Nat)
  | writeOut (fanout : List (Nat × String))
  | submitHookJob (level : Int) (msg : String)
  | drain
  | stopPool
  | exitCall (code : Int)
  | panicCall (msg : String)
  | releaseBuf (b : GoBuf)
deriving DecidableEq

/-- `event.msgf` on a non-nil event.  Returns the logger (its pool
updated by the reallocation borrow and the deferred release), the action
trace, and the buffer the event holds when the call exits.

The deferred `putBuffer(e.buf)` evaluated its argument when the `defer`
statement ran, so after the mid-call reallocation (`e.buf = newBuf`) the
deferred release still refers to the original buffer, which no later
append touches; without reallocation the deferred pointer aliases the
buffer holding the built line.  FATAL and PANIC record the overridable
`exitFunc`/`panicFunc` actions after `wg.Wait()` and `workerPool.stop()`;
the deferred release is traced last, as it runs when the call unwinds
(the termination actions are overridden in the tests, so the call does
unwind).  `hooks` and `writers` are read from the logger the event was
bound to; the pool operations do not touch them. -/
def msgf (l : Logger) (level : Int) (buf0 : GoBuf) (ts format : String)
    (args : List GoArg) : Logger × List Act × GoBuf :=
  let est := estimatedSize level ts format
  let g := getBuffer l est
  let l1 := if buf0.cap < est then g.2 else l
  let preActs := if buf0.cap < est then [Act.borrowBuf g.1.cap] else []
  let cur := if buf0.cap < est then goAppend g.1 buf0.data else buf0
  let line := buildLine cur level ts format args
  let hookActs :=
    if 0 < l.hooks.length then
      [Act.submitHookJob level (sprintfModel format args)]
    else []
  let fatalActs :=
    if level = FATAL then [Act.drain, Act.stopPool, Act.exitCall 1] else []
  let panicActs :=
    if level = PANIC then
      [Act.drain, Act.stopPool, Act.panicCall (sprintfModel format args)]
    else []
  let released := if buf0.cap < est then buf0 else line
  let l2 := putBuffer l1 released
  (l2,
    preActs ++ [Act.writeOut (mwWrite l.writers line.data)] ++ hookActs ++
      fatalActs ++ panicActs ++ [Act.releaseBuf released],
    line)

/-- The result of one emission: the logger after it, the trace of its
side effects, and (when the gate passed) the buffer held at exit. -/
structure EmitResult where
  logger : Logger
  trace : List Act
  exitBuf : Option GoBuf

/-- `Logger.newEvent` composed with `event.msgf` — one emission method
call (`Debugf`/`Infof`/...): below the level threshold `newEvent`
returns a nil event on which `msgf` is an immediate no-op; otherwise a
buffer of `bufSize` is leased and the message is formatted, written,
dispatched and the deferred release performed. -/
def emit (l : Logger) (level : Int) (ts format : String)
    (args : List GoArg) : EmitResult :=
  if level < l.level then ⟨l, [], none⟩
  else
    let g := getBuffer l l.bufSize
    let r := msgf g.2 level g.1 ts format args
    ⟨r.1, Act.borrowBuf g.1.cap :: r.2.1, some r.2.2⟩

/-! ## Trace projections -/

def isWrite : Act → Bool
  | .writeOut _ => true
  | .borrowBuf _ => false
  | .submitHookJob _ _ => false
  | .drain => false
  | .stopPool => false
  | .exitCall _ => false
  | .panicCall _ => false
  | .releaseBuf _ => false

def hasWrite (tr : List Act) : Bool := tr.any isWrite

def writeData : Act → Option (List (Nat × String))
  | .writeOut p => some p
  | .borrowBuf _ => none
  | .submitHookJob _ _ => none
  | .drain => none
  | .stopPool => none
  | .exitCall _ => none
  | .panicCall _ => none
  | .releaseBuf _ => none

/-- The payloads of the fan-out writes of a trace, in order. -/
def writesOf (tr : List Act) : List (List (Nat × String)) :=
  tr.filterMap writeData

def isTerm : Act → Bool
  | .drain => true
  | .stopPool => true
  | .exitCall _ => true
  | .panicCall _ => true
  | .borrowBuf _ => false
  | .writeOut _ => false
  | .submitHookJob _ _ => false
  | .releaseBuf _ => false

/-- The drain/stop/terminate actions of a trace, in order. -/
def termActs (tr : List Act) : List Act := tr.filter isTerm

def borrowCap : Act → Option Nat
  | .borrowBuf c => some c
  | .writeOut _ => none
  | .submitHookJob _ _ => none
  | .drain => none
  | .stopPool => none
  | .exitCall _ => none
  | .panicCall _ => none
  | .releaseBuf _ => none

/-- The capacities of the buffers borrowed during a trace, in order. -/
def borrowsOf (tr : List Act) : List Nat := tr.filterMap borrowCap

def releaseData : Act → Option GoBuf
  | .releaseBuf b => some b
  | .borrowBuf _ => none
  | .writeOut _ => none
  | .submitHookJob _ _ => none
  | .drain => none
  | .stopPool => none
  | .exitCall _ => none
  | .panicCall _ => none

/-- The buffers passed to the deferred `putBuffer` during a trace. -/
def releasesOf (tr : List Act) : List GoBuf := tr.filterMap releaseData

def hookJobData : Act → Option (Int × String)
  | .submitHookJob lv m => some (lv, m)
  | .borrowBuf _ => none
  | .writeOut _ => none
  | .drain => none
  | .stopPool => none
  | .exitCall _ => none
  | .panicCall _ => none
  | .releaseBuf _ => none

/-- The hook-dispatch jobs submitted during a trace. -/
def hookJobsOf (tr : List Act) : List (Int × String) := tr.filterMap hookJobData

/-- The line format asserted by the spec: color, padded label, reset,
space, timestamp, colon-space, message body, newline. -/
def renderLine (level : Int) (ts body : String) : String :=
  levelColors level ++ levelPaddedString level ++ colorReset ++ " " ++ ts ++
    ": " ++ body ++ "\n"

/-! ## The hook-dispatch job -/

/-- Go `Logger.removeHook(id)`: delete the first record whose id matches,
then return. -/
def removeHook : List Hook → String → List Hook
  | [], _ => []
  | h :: t, i => if h.id = i then t else h :: removeHook t i

/-- Insertion of a hook into a list already ordered by descending
priority, used by `sortHooksDesc`. -/
def insertHookDesc (h : Hook) : List Hook → List Hook
  | [] => [h]
  | h' :: t => if h'.priority < h.priority then h :: h' :: t
               else h' :: insertHookDesc h t

/-- The snapshot ordering of `executeHooks`:
`slices.SortFunc(hooks, fun a b => b.priority - a.priority)` sorts the
snapshot copy by descending priority.  Go's `slices.SortFunc` is
documented as not stable; this model fixes one admissible order (ties
keep their insertion order here).  No theorem below depends on the order
among equal priorities. -/
def sortHooksDesc : List Hook → List Hook
  | [] => []
  | h :: t => insertHookDesc h (sortHooksDesc t)

/-- The loop body of the `executeHooks` job: invoke each snapshot hook in
order with `(level, msg)`; on a returned error, print one
`"Hook error: ..."` line to stderr and remove the hook from the live
list by id. -/
def runHooks : List Hook → Int → String → List Hook → List Hook × List String
  | [], _, _, live => (live, [])
  | h :: t, lv, m, live =>
    match h.fn lv m with
    | none => runHooks t lv m live
    | some e =>
      let r := runHooks t lv m (removeHook live h.id)
      (r.1, ("Hook error: " ++ e ++ "\n") :: r.2)

/-- One dispatch pass of the `executeHooks` job: snapshot and sort the
hook list, run the hooks, mutating the live list on errors.  Returns the
live hook list after the pass and the stderr diagnostics, in order. -/
def runPass (hooks : List Hook) (lv : Int) (m : String) :
    List Hook × List String :=
  runHooks (sortHooksDesc hooks) lv m hooks

/-- Whether some hook of the snapshot `S` errors under `(lv, m)` and
carries the id `i` — i.e. whether the pass issues `removeHook i`. -/
def erroring (S : List Hook) (lv : Int) (m : String) (i : String) : Bool :=
  S.any fun h => (h.fn lv m).isSome && decide (h.id = i)

/-! ## Concrete fixtures used by witnesses and failing inputs -/

/-- A concrete hook callback that always succeeds. -/
def okHook : Hook := ⟨fun _ _ => none, 0, "h-ok"⟩

/-- A concrete hook callback that always fails with `"boom"`. -/
def badHook : Hook := ⟨fun _ _ => some "boom", 1, "h-bad"⟩

/-- A logger sitting exactly at the default capacity of 100 hooks. -/
def fullLogger : Logger := { newLogger with hooks := List.replicate 100 okHook }

/-- A fresh logger with one registered hook. -/
def oneHookLogger : Logger := { newLogger with hooks := [okHook] }

/-- A 1000-byte message (forces the mid-call reallocation). -/
def longMsg : String := ⟨List.replicate 1000 'a'⟩

/-- A sample formatted timestamp in the default time format (27 bytes). -/
def tsSample : String := "2025-01-01 00:00:00.000 UTC"

/-- A logger whose pool holds a 1024-capacity buffer (handed to the
event) and a 3000-capacity buffer (handed out on the reallocation) —
the state left behind by earlier emissions that pooled a grown buffer. -/
def pooledLogger : Logger :=
  { newLogger with pool := [⟨"", 1024⟩, ⟨"", 3000⟩] }

/-- A fresh logger with two registered destinations. -/
def twoDestLogger : Logger := { newLogger with writers := [0, 1] }

/-! # Theorems -/

/-! ## Helper lemmas -/

theorem goAppend_data (b : GoBuf) (s : String) : (goAppend b s).data = b.data ++ s := by
  unfold goAppend
  split <;> rfl

theorem getBuffer_data (l : Logger) (size : Nat) : (getBuffer l size).1.data = "" := by
  unfold getBuffer
  split
  · rfl
  · match h : l.pool with
    | [] => simp [h]
    | b :: rest => simp [h]

/-! ## Claim C10: totality of the level string tables -/

/-- C10: `Level.String` and `Level.PaddedString` are total over all
integer-backed level values: every value outside DEBUG..PANIC yields
`"UNKNOWN"` resp. `"[UNKNOWN]"` (the missing-key lookup is guarded). -/
theorem c10_level_strings_total (l : Int) (h : l < DEBUG ∨ PANIC < l) :
    levelString l = "UNKNOWN" ∧ levelPaddedString l = "[UNKNOWN]" := by
  have hc : l < 0 ∨ 6 < l := h
  have h0 : l ≠ DEBUG := by show l ≠ 0; rcases hc with hc | hc <;> omega
  have h1 : l ≠ INFO := by show l ≠ 1; rcases hc with hc | hc <;> omega
  have h2 : l ≠ WARN := by show l ≠ 2; rcases hc with hc | hc <;> omega
  have h3 : l ≠ ERROR := by show l ≠ 3; rcases hc with hc | hc <;> omega
  have h4 : l ≠ CRITICAL := by show l ≠ 4; rcases hc with hc | hc <;> omega
  have h5 : l ≠ FATAL := by show l ≠ 5; rcases hc with hc | hc <;> omega
  have h6 : l ≠ PANIC := by show l ≠ 6; rcases hc with hc | hc <;> omega
  constructor
  · simp [levelString, h0, h1, h2, h3, h4, h5, h6]
  · simp [levelPaddedString, paddedLevelStrings, h0, h1, h2, h3, h4, h5, h6]

/-- C10 witness: the out-of-range values 7 and -1 evaluate as claimed. -/
theorem c10_level_strings_total_witness :
    (levelString 7 = "UNKNOWN" ∧ levelPaddedString 7 = "[UNKNOWN]") ∧
      (levelString (-1) = "UNKNOWN" ∧ levelPaddedString (-1) = "[UNKNOWN]") :=
  ⟨c10_level_strings_total 7 (by decide), c10_level_strings_total (-1) (by decide)⟩

/-! ## Claim C3: AddHook capacity behaviour -/

/-- C3: at capacity, `AddHook` returns an error and leaves the logger
(and in particular the hook list) completely unchanged; below capacity
it appends exactly one record and returns no error, mutating no other
field. -/
theorem c3_addHook_capacity (l : Logger) (fn : Int → String → Option String)
    (priority : Int) (newId : String) :
    (l.maxHooks ≤ (l.hooks.length : Int) →
      (AddHook l fn priority newId).1 = l ∧
        (AddHook l fn priority newId).2 =
          some ("maximum number of hooks (" ++ toString l.maxHooks ++ ") reached")) ∧
    ((l.hooks.length : Int) < l.maxHooks →
      (AddHook l fn priority newId).1 =
          { l with hooks := l.hooks ++ [⟨fn, priority, newId⟩] } ∧
        (AddHook l fn priority newId).2 = none) := by
  constructor
  · intro hfull
    simp [AddHook, hfull]
  · intro hroom
    have : ¬ l.maxHooks ≤ (l.hooks.length : Int) := by omega
    simp [AddHook, this]

/-- C3 witness: adding a 101st hook to a logger with 100 hooks fails and
changes nothing; adding to a fresh logger appends one record. -/
theorem c3_addHook_capacity_witness :
    ((AddHook fullLogger (fun _ _ => none) 0 "h-new").1 = fullLogger ∧
      (AddHook fullLogger (fun _ _ => none) 0 "h-new").2 =
        some "maximum number of hooks (100) reached") ∧
    ((AddHook newLogger (fun _ _ => none) 0 "h-new").1 =
        { newLogger with hooks := [⟨fun _ _ => none, 0, "h-new"⟩] } ∧
      (AddHook newLogger (fun _ _ => none) 0 "h-new").2 = none) := by
  constructor
  · have h := (c3_addHook_capacity fullLogger (fun _ _ => none) 0 "h-new").1
      (by simp [fullLogger, newLogger])
    exact ⟨h.1, h.2.trans (by decide)⟩
  · have h := (c3_addHook_capacity newLogger (fun _ _ => none) 0 "h-new").2
      (by simp [newLogger])
    exact ⟨h.1.trans rfl, h.2⟩

/-! ## More helper lemmas for the emission pipeline -/

theorem getBuffer_writers (l : Logger) (size : Nat) :
    (getBuffer l size).2.writers = l.writers := by
  unfold getBuffer
  split
  · rfl
  · match h : l.pool with
    | [] => simp [h]
    | b :: rest => simp [h]

theorem getBuffer_hooks (l : Logger) (size : Nat) :
    (getBuffer l size).2.hooks = l.hooks := by
  unfold getBuffer
  split
  · rfl
  · match h : l.pool with
    | [] => simp [h]
    | b :: rest => simp [h]

theorem buildLine_data (b : GoBuf) (level : Int) (ts format : String)
    (args : List GoArg) :
    (buildLine b level ts format args).data =
      b.data ++ renderLine level ts (msgBody format args) := by
  apply String.ext
  simp [buildLine, goAppend_data, renderLine, String.data_append, List.append_assoc]

/-! ## Claim C2: the level gate -/

/-- C2: an emission at level L produces a write to the output writer iff
L ≥ the configured threshold; below the threshold the call returns with
an empty effect trace (no formatting, no buffer borrowing, no hook
dispatch, no termination action) and the logger state unchanged. -/
theorem c2_level_gate (l : Logger) (level : Int) (ts format : String)
    (args : List GoArg) :
    (hasWrite (emit l level ts format args).trace = true ↔ l.level ≤ level) ∧
      (level < l.level → emit l level ts format args = ⟨l, [], none⟩) := by
  by_cases hlt : level < l.level
  · constructor
    · constructor
      · intro hw
        rw [show emit l level ts format args = ⟨l, [], none⟩ from by
          simp [emit, hlt]] at hw
        simp [hasWrite] at hw
      · intro hge
        exact absurd hlt (not_lt.mpr hge)
    · intro _
      simp [emit, hlt]
  · have hge := not_lt.mp hlt
    refine ⟨⟨fun _ => hge, fun _ => ?_⟩, fun h => absurd h hlt⟩
    simp [emit, hlt, msgf, hasWrite, isWrite, List.any_append]

/-- C2 witness: on a fresh logger (threshold INFO), a DEBUG emission is a
no-op leaving the logger untouched, and a WARN emission writes. -/
theorem c2_level_gate_witness :
    emit newLogger DEBUG "ts" "m" [] = ⟨newLogger, [], none⟩ ∧
      hasWrite (emit newLogger WARN tsSample "m" []).trace = true := by
  constructor
  · exact (c2_level_gate newLogger DEBUG "ts" "m" []).2 (by decide)
  · exact ((c2_level_gate newLogger WARN tsSample "m" []).1).mpr (by decide)

/-! ## Claim C5: termination actions -/

/-- C5: once the gate passes, FATAL — and no other level except PANIC —
always invokes the termination action, with exit status 1; PANIC invokes
the abnormal-termination action carrying the substituted message; in
both cases the action runs only after the drain of outstanding hook jobs
and the worker-pool stop (drain, stop, terminate — in that order). -/
theorem c5_termination (l : Logger) (level : Int) (ts format : String)
    (args : List GoArg) (hgate : l.level ≤ level) :
    (level = FATAL →
      termActs (emit l level ts format args).trace =
        [Act.drain, Act.stopPool, Act.exitCall 1]) ∧
    (level = PANIC →
      termActs (emit l level ts format args).trace =
        [Act.drain, Act.stopPool, Act.panicCall (sprintfModel format args)]) ∧
    (level ≠ FATAL → level ≠ PANIC →
      termActs (emit l level ts format args).trace = []) := by
  have hlt : ¬ level < l.level := not_lt.mpr hgate
  refine ⟨fun h5 => ?_, fun h6 => ?_, fun h5 h6 => ?_⟩
  · subst h5
    have hne : FATAL ≠ PANIC := by decide
    simp [emit, hlt, msgf, termActs, isTerm, List.filter_append, hne,
      apply_ite (List.filter isTerm)]
  · subst h6
    have hne : PANIC ≠ FATAL := by decide
    simp [emit, hlt, msgf, termActs, isTerm, List.filter_append, hne,
      apply_ite (List.filter isTerm)]
  · simp [emit, hlt, msgf, termActs, isTerm, List.filter_append, h5, h6,
      apply_ite (List.filter isTerm)]

/-- C5 witness: a FATAL emission on a fresh logger with zero hooks drains,
stops the pool and exits with status 1; an INFO emission triggers no
termination action. -/
theorem c5_termination_witness :
    termActs (emit newLogger FATAL tsSample "fatal" []).trace =
        [Act.drain, Act.stopPool, Act.exitCall 1] ∧
      termActs (emit newLogger INFO tsSample "info" []).trace = [] := by
  constructor
  · exact (c5_termination newLogger FATAL tsSample "fatal" [] (by decide)).1 rfl
  · exact (c5_termination newLogger INFO tsSample "info" [] (by decide)).2.2
      (by decide) (by decide)

/-! ## Claim C6: line format and fan-out -/

/-- C6: every emitted message is rendered as the exact byte sequence
color, padded level label, color reset, space, timestamp, colon-space,
message body, newline — and that payload goes out in a single fan-out
call handing the identical bytes to every registered destination in
registration order. -/
theorem c6_line_format_and_fanout (l : Logger) (level : Int)
    (ts format : String) (args : List GoArg) (hgate : l.level ≤ level) :
    writesOf (emit l level ts format args).trace =
      [mwWrite l.writers (renderLine level ts (msgBody format args))] ∧
    ∀ d : String, (mwWrite l.writers d).map Prod.fst = l.writers ∧
      ∀ p ∈ mwWrite l.writers d, p.2 = d := by
  have hlt : ¬ level < l.level := not_lt.mpr hgate
  constructor
  · simp [emit, hlt, msgf, writesOf, writeData, List.filterMap_append,
      apply_ite (List.filterMap writeData), getBuffer_writers, buildLine_data,
      getBuffer_data, goAppend_data, apply_ite GoBuf.data]
  · intro d
    constructor
    · unfold mwWrite
      rw [List.map_map]
      exact List.map_id l.writers
    · intro p hp
      simp only [mwWrite, List.mem_map] at hp
      rcases hp with ⟨w, _, rfl⟩
      rfl

/-- C6 witness: one INFO emission on a logger with two destinations hands
the identical rendered line to both, in registration order. -/
theorem c6_line_format_and_fanout_witness :
    writesOf (emit twoDestLogger INFO tsSample "hello" []).trace =
      [[(0, renderLine INFO tsSample "hello"),
        (1, renderLine INFO tsSample "hello")]] := by
  have h := (c6_line_format_and_fanout twoDestLogger INFO tsSample "hello" []
    (by decide)).1
  exact h.trans rfl

/-! ## Claim C1: the one-argument fast path versus the general formatter -/

/-- C1 (code bug): on `Info("value=%d", 42)` the one-argument fast path
appends only the textual conversion of the argument and discards the
format string: the sink receives the body `"42"` while the general
format-and-substitute routine — and the hook dispatch, which uses it —
produce `"value=42"`.  The fast path is therefore not output-equivalent
to the general formatter. -/
theorem c1_fastpath_drops_format :
    msgBody "value=%d" [GoArg.int 42] = "42" ∧
    sprintfModel "value=%d" [GoArg.int 42] = "value=42" ∧
    writesOf (emit oneHookLogger INFO "12:00:00" "value=%d" [GoArg.int 42]).trace =
      [mwWrite oneHookLogger.writers (renderLine INFO "12:00:00" "42")] ∧
    hookJobsOf (emit oneHookLogger INFO "12:00:00" "value=%d" [GoArg.int 42]).trace =
      [(INFO, "value=42")] ∧
    (("42" : String) == "value=42") = false :=
  ⟨rfl, rfl, rfl, rfl, rfl⟩

/-! ## Claim C7: the guaranteed-release path misses the reallocated buffer -/

set_option maxRecDepth 40000 in
/-- C7 (code bug): on an emission whose estimated size exceeds the
leased buffer's capacity, the deferred release returns only the
original, pre-reallocation buffer (empty, capacity 1024) to the pool;
the buffer the builder holds when the call exits — the reallocated one,
holding the line and with capacity 3000 well inside the 4x oversize
threshold — is never released. -/
theorem c7_release_misses_reallocated_buffer :
    borrowsOf (emit pooledLogger WARN tsSample longMsg []).trace = [1024, 3000] ∧
    releasesOf (emit pooledLogger WARN tsSample longMsg []).trace = [⟨"", 1024⟩] ∧
    (emit pooledLogger WARN tsSample longMsg []).exitBuf =
      some ⟨renderLine WARN tsSample longMsg, 3000⟩ ∧
    3000 ≤ pooledLogger.bufSize * 4 ∧
    decide ((⟨renderLine WARN tsSample longMsg, 3000⟩ : GoBuf) ∈
      releasesOf (emit pooledLogger WARN tsSample longMsg []).trace) = false := by
  refine ⟨rfl, rfl, rfl, by decide, ?_⟩
  rw [show releasesOf (emit pooledLogger WARN tsSample longMsg []).trace =
    [(⟨"", 1024⟩ : GoBuf)] from rfl]
  rfl

/-! ## Claim C8: getBuffer ignores the requested size on the pool path -/

set_option maxRecDepth 40000 in
/-- C8 (code bug): `getBuffer(2000)` on a fresh logger yields a buffer of
capacity 1024 < 2000, and on the reallocation path of an emission whose
estimated size is 1046 the replacement buffer obtained from the pool
also has capacity only 1024 — the pool path never consults the
requested size, so the copy is not a single sufficient reallocation. -/
theorem c8_getBuffer_ignores_size :
    (getBuffer newLogger 2000).1.cap = 1024 ∧
    (getBuffer newLogger 2000).1.cap < 2000 ∧
    estimatedSize WARN tsSample longMsg = 1046 ∧
    borrowsOf (emit newLogger WARN tsSample longMsg []).trace = [1024, 1024] ∧
    1024 < estimatedSize WARN tsSample longMsg := by
  refine ⟨rfl, by decide, rfl, rfl, by decide⟩

/-! ## Claim C4: hook errors — diagnostics and removal -/

theorem mem_insertHookDesc {h a : Hook} {l : List Hook} :
    a ∈ insertHookDesc h l ↔ a = h ∨ a ∈ l := by
  induction l with
  | nil => simp [insertHookDesc]
  | cons h' t ih =>
    unfold insertHookDesc
    split
    · simp [List.mem_cons]
    · simp [List.mem_cons, ih]
      tauto

theorem mem_sortHooksDesc {a : Hook} {l : List Hook} :
    a ∈ sortHooksDesc l ↔ a ∈ l := by
  induction l with
  | nil => simp [sortHooksDesc]
  | cons h t ih => simp [sortHooksDesc, mem_insertHookDesc, ih, List.mem_cons]

theorem removeHook_sublist (live : List Hook) (i : String) :
    (removeHook live i).Sublist live := by
  induction live with
  | nil => simp [removeHook]
  | cons h t ih =>
    unfold removeHook
    split
    · exact List.sublist_cons_self h t
    · exact ih.cons₂ h

theorem nodup_removeHook {live : List Hook} (i : String)
    (hnd : (live.map Hook.id).Nodup) :
    ((removeHook live i).map Hook.id).Nodup :=
  hnd.sublist ((removeHook_sublist live i).map Hook.id)

theorem id_ne_of_mem_removeHook {live : List Hook} {i : String}
    (hnd : (live.map Hook.id).Nodup) {x : Hook}
    (hx : x ∈ removeHook live i) : x.id ≠ i := by
  induction live with
  | nil => simp [removeHook] at hx
  | cons h t ih =>
    rw [List.map_cons, List.nodup_cons] at hnd
    unfold removeHook at hx
    by_cases hid : h.id = i
    · rw [if_pos hid] at hx
      intro hxi
      have hhx : h.id = x.id := by rw [hid, hxi]
      exact hnd.1 (by rw [hhx]; exact List.mem_map_of_mem Hook.id hx)
    · rw [if_neg hid] at hx
      rcases List.mem_cons.mp hx with rfl | hx'
      · exact hid
      · exact ih hnd.2 hx'

theorem filter_removeHook (p : Hook → Bool) (i : String) (live : List Hook)
    (hp : ∀ x ∈ live, x.id = i → p x = false) :
    (removeHook live i).filter p = live.filter p := by
  induction live with
  | nil => rfl
  | cons h t ih =>
    unfold removeHook
    by_cases hid : h.id = i
    · rw [if_pos hid]
      have hph : p h = false := hp h (List.mem_cons_self h t) hid
      simp [List.filter_cons, hph]
    · rw [if_neg hid]
      have ih' := ih (fun x hx hxi => hp x (List.mem_cons_of_mem _ hx) hxi)
      cases hph : p h <;> simp [List.filter_cons, hph, ih']

theorem runHooks_live (S : List Hook) (lv : Int) (m : String) :
    ∀ live : List Hook, (live.map Hook.id).Nodup →
      (runHooks S lv m live).1 =
        live.filter (fun x => ! erroring S lv m x.id) := by
  induction S with
  | nil =>
    intro live _
    simp [runHooks, erroring]
  | cons h t ih =>
    intro live hnd
    unfold runHooks
    cases hfn : h.fn lv m with
    | none =>
      rw [ih live hnd]
      apply List.filter_congr
      intro x _
      simp [erroring, hfn]
    | some e =>
      show (runHooks t lv m (removeHook live h.id)).1 = _
      rw [ih (removeHook live h.id) (nodup_removeHook h.id hnd)]
      have step1 : (removeHook live h.id).filter (fun x => ! erroring t lv m x.id) =
          (removeHook live h.id).filter (fun x => ! erroring (h :: t) lv m x.id) := by
        apply List.filter_congr
        intro x hx
        have hne : x.id ≠ h.id := id_ne_of_mem_removeHook hnd hx
        have hdec : decide (h.id = x.id) = false :=
          decide_eq_false (fun hh => hne hh.symm)
        simp [erroring, List.any_cons, hdec]
      have step2 : (removeHook live h.id).filter
            (fun x => ! erroring (h :: t) lv m x.id) =
          live.filter (fun x => ! erroring (h :: t) lv m x.id) := by
        apply filter_removeHook
        intro x _ hxi
        simp [erroring, List.any_cons, hfn, hxi]
      rw [step1, step2]

theorem runHooks_errs (S : List Hook) (lv : Int) (m : String) :
    ∀ live : List Hook,
      (runHooks S lv m live).2 =
        S.filterMap (fun h => (h.fn lv m).map
          (fun e => "Hook error: " ++ e ++ "\n")) := by
  induction S with
  | nil => intro live; rfl
  | cons h t ih =>
    intro live
    unfold runHooks
    cases hfn : h.fn lv m with
    | none => simp [hfn, ih]
    | some e => simp [hfn, ih]

/-- C4: in one dispatch pass, every snapshot hook whose callback errors
produces exactly one `"Hook error: ..."` diagnostic on the error stream
(in pass order) and its record — matched by identity — is removed from
the live registry, so it is gone from the list every subsequent pass
snapshots; hooks returning nil are kept.  Identities are assumed
pairwise distinct, the invariant the spec states for the registry. -/
theorem c4_hook_error_removal (hooks : List Hook) (lv : Int) (m : String)
    (hnd : (hooks.map Hook.id).Nodup) :
    (runPass hooks lv m).1 = hooks.filter (fun x => (x.fn lv m).isNone) ∧
    (runPass hooks lv m).2 = (sortHooksDesc hooks).filterMap
      (fun h => (h.fn lv m).map (fun e => "Hook error: " ++ e ++ "\n")) := by
  constructor
  · show (runHooks (sortHooksDesc hooks) lv m hooks).1 = _
    rw [runHooks_live (sortHooksDesc hooks) lv m hooks hnd]
    apply List.filter_congr
    intro x hx
    cases hfn : x.fn lv m with
    | none =>
      have herr : erroring (sortHooksDesc hooks) lv m x.id = false := by
        apply List.any_eq_false.mpr
        intro h hh
        intro hcontra
        rw [Bool.and_eq_true, decide_eq_true_eq] at hcontra
        obtain ⟨hsome, hid⟩ := hcontra
        have hxh : h = x :=
          List.inj_on_of_nodup_map hnd (mem_sortHooksDesc.mp hh) hx hid
        rw [hxh, hfn] at hsome
        simp at hsome
      simp [herr, hfn]
    | some e =>
      have herr : erroring (sortHooksDesc hooks) lv m x.id = true :=
        List.any_eq_true.mpr ⟨x, mem_sortHooksDesc.mpr hx, by simp [hfn]⟩
      simp [herr, hfn]
  · exact runHooks_errs (sortHooksDesc hooks) lv m hooks

/-- C4 witness: a failing hook (priority 1) and a succeeding hook run in
one pass: one diagnostic, the failing record removed, the nil-returning
record kept. -/
theorem c4_hook_error_removal_witness :
    (runPass [badHook, okHook] INFO "m").1 = [okHook] ∧
    (runPass [badHook, okHook] INFO "m").2 = ["Hook error: boom\n"] := by
  have h := c4_hook_error_removal [badHook, okHook] INFO "m" (by decide)
  exact ⟨h.1.trans rfl, h.2.trans rfl⟩
